import Mathlib

/-!
Verification of the Mython interpreter core (lexer, runtime, executor).

This file is a shallow embedding of the three source files
`mython/lexer.cpp`, `mython/runtime.cpp` and `mython/statement.cpp`.
Pure functions of the source become Lean functions; the mutable lexer
and interpreter state become explicit state records; C++ exceptions
become `Except` errors carrying the state at the moment of the throw.
All interpreter recursion is made total with an explicit fuel
parameter; running out of fuel is a distinguished outcome that is
never identified with any behaviour of the program.
-/

namespace Mython

/-! ## Lexer: tokens (`parse::Token` of lexer.h, shapes as used by lexer.cpp) -/

inductive LexToken where
  | number (n : Int)
  | id (s : String)
  | str (s : String)
  | char (c : Char)
  | kwClass
  | kwReturn
  | kwIf
  | kwElse
  | kwDef
  | kwPrint
  | kwAnd
  | kwOr
  | kwNot
  | kwNone
  | kwTrue
  | kwFalse
  | eq
  | notEq
  | lessOrEq
  | greaterOrEq
  | newline
  | indent
  | dedent
  | eof
deriving DecidableEq, Repr

/-- The lexer's mutable state: the input cursor (`input_`, a character
list standing for the stream, with `putback` modelled by consing
characters back on), the indentation depth counter `indent_count_`
(a C++ `int`, hence `Int`), the one-step flag `indent_equal_`, and the
most recently produced token `token_`. -/
structure LexState where
  input : List Char
  indentCount : Int
  indentEqual : Bool
  tok : LexToken
deriving DecidableEq, Repr

/-- Modelled from the spec: `lexer.h` is not part of the sources, so the
default value of the `token_` member is taken from the spec, which calls
the initial previous token the "Eof-sentinel" (§4.1 "Newline suppression
at start"). Depth counter starts at zero, flag clear. -/
def lexInit (src : String) : LexState :=
  { input := src.toList, indentCount := 0, indentEqual := false, tok := .eof }

/-- Consume the maximal run of leading spaces, returning its length and
the rest (the space-consuming loops of `Helper::Indent` / `Helper::Space`). -/
def spacesCount : List Char → Nat × List Char
  | ' ' :: rest => let (n, r) := spacesCount rest; (n + 1, r)
  | l => (0, l)

/-- Is this byte part of an identifier, per the scan loop of `Helper::Id`
(`'_' == peek() || std::isalnum(peek())`)? -/
def isIdentChar (c : Char) : Bool :=
  c = '_' || c.isAlphanum

/-- Consume the maximal identifier run (the while loop of `Helper::Id`). -/
def identRun (l : List Char) : String × List Char :=
  (String.mk (l.takeWhile isIdentChar), l.dropWhile isIdentChar)

/-- The keyword switch of `Helper::Id`: a lexeme whose first byte is `_`
is always an `Id`; otherwise the fixed keyword set is consulted; on a
miss the lexeme is an `Id`. -/
def keywordTok (c : Char) (s : String) : LexToken :=
  if c = '_' then .id s
  else if s = "class" then .kwClass
  else if s = "return" then .kwReturn
  else if s = "if" then .kwIf
  else if s = "else" then .kwElse
  else if s = "def" then .kwDef
  else if s = "print" then .kwPrint
  else if s = "and" then .kwAnd
  else if s = "or" then .kwOr
  else if s = "not" then .kwNot
  else if s = "None" then .kwNone
  else if s = "True" then .kwTrue
  else if s = "False" then .kwFalse
  else .id s

/-- `Lexer::Helper::Id` (lexer.cpp:80-141), minus the final `token_`
assignment done by `NextToken`.  If the equal-depth flag is clear and the
previous token is Newline or Dedent while the depth counter is nonzero,
a Dedent is produced without consuming input; otherwise the identifier
run is consumed (clearing the flag) and the keyword switch applied. -/
def helperId (s : LexState) : LexToken × LexState :=
  if !s.indentEqual ∧ (s.tok = .newline ∨ s.tok = .dedent) ∧ s.indentCount ≠ 0 then
    (.dedent, { s with indentCount := s.indentCount - 1 })
  else
    let c := s.input.headD ' '
    let (str, rest) := identRun s.input
    (keywordTok c str, { s with input := rest, indentEqual := false })

/-- Digit run to its numeric value (`std::stoi` on a run of decimal
digits; the run is nonempty at every call site). -/
def digitsVal (l : List Char) : Nat :=
  l.foldl (fun acc c => acc * 10 + (c.toNat - 48)) 0

/-- `Lexer::Helper::Number` (lexer.cpp:143-149). -/
def scanNumberTok (l : List Char) : LexToken × List Char :=
  (.number (digitsVal (l.takeWhile Char.isDigit) : Nat), l.dropWhile Char.isDigit)

/-- Body loop of `Lexer::Helper::String` (lexer.cpp:151-188): consume
until the matching quote, decoding the six escapes; an unknown escape is
a lex error.  (At end of input the C++ stream yields EOF bytes forever;
that situation is modelled as a lex error, and is not relied upon.) -/
def strBody (quot : Char) : List Char → String → Except String (String × List Char)
  | [], _ => .error "String(): eof inside string literal"
  | c :: rest, acc =>
    if c = quot then .ok (acc, rest)
    else if c = '\\' then
      match rest with
      | [] => .error "String(): eof inside string literal"
      | e :: rest2 =>
        if e = 'n' then strBody quot rest2 (acc.push '\n')
        else if e = 't' then strBody quot rest2 (acc.push '\t')
        else if e = 'r' then strBody quot rest2 (acc.push '\r')
        else if e = '"' then strBody quot rest2 (acc.push '"')
        else if e = '\'' then strBody quot rest2 (acc.push '\'')
        else if e = '\\' then strBody quot rest2 (acc.push '\\')
        else .error "Unrecognized escape sequence"
    else strBody quot rest (acc.push c)

/-- `Lexer::Helper::String`: the opening quote selects the terminator. -/
def scanStringTok : List Char → Except String (LexToken × List Char)
  | [] => .error "String(): empty input"
  | quot :: rest =>
    match strBody quot rest "" with
    | .ok (sv, rest') => .ok (.str sv, rest')
    | .error m => .error m

/-- `Lexer::Helper::Comment` (lexer.cpp:276-281): `getline` consumes up
to and including the newline, which is then put back; so the input is
left at the first newline (or empty when the comment runs to EOF). -/
def commentSkip (l : List Char) : List Char :=
  l.dropWhile (· ≠ '\n')

/-- Single-byte operator tokens of `Helper::Char` (lexer.cpp:292-309). -/
def isSimpleOp (c : Char) : Bool :=
  c = '+' || c = '-' || c = '*' || c = '/' || c = '.' || c = ',' ||
  c = ':' || c = '(' || c = ')'

/-- Outcome of one dispatch round of `Lexer::NextToken`: a produced
token together with the state after it (`token_` not yet updated), an
internal re-entry into `NextToken` (each `return lexer.NextToken();` in
the helpers), or a lex error. -/
inductive StepOut where
  | tok (t : LexToken) (s : LexState)
  | again (s : LexState)
  | err (m : String)
deriving DecidableEq, Repr

/-- `Lexer::Helper::Indent` (lexer.cpp:190-234): clear the equal-depth
flag, consume the run of leading spaces; a blank line re-enters
`NextToken`; an odd count is a lex error; an equal pair count sets the
flag and re-enters; otherwise one Indent or Dedent is produced and the
spaces are pushed back. -/
def indentStep (s : LexState) : StepOut :=
  let (n, restSp) := spacesCount s.input
  let s1 : LexState := { s with indentEqual := false, input := restSp }
  if restSp.headD ' ' = '\n' then
    .again s1
  else if n % 2 = 1 then
    .err "Indent(): odd spaces"
  else
    let pairs : Int := (n / 2 : Nat)
    if pairs = s1.indentCount then
      .again { s1 with indentEqual := true }
    else if pairs ≠ 0 ∧ s.tok = .indent then
      .tok .indent { s1 with indentCount := s1.indentCount + 1
                             input := List.replicate n ' ' ++ restSp }
    else if pairs ≠ 0 ∧ s.tok = .dedent then
      .tok .dedent { s1 with indentCount := s1.indentCount - 1
                             input := List.replicate n ' ' ++ restSp }
    else if pairs > s1.indentCount then
      .tok .indent { s1 with indentCount := s1.indentCount + 1
                             input := List.replicate n ' ' ++ restSp }
    else
      .tok .dedent { s1 with indentCount := s1.indentCount - 1
                             input := List.replicate n ' ' ++ restSp }

/-- `Lexer::Helper::Space` (lexer.cpp:266-274): at a line start (previous
token Newline, Indent or Dedent) defer to `Indent`; elsewhere skip the
spaces and re-enter `NextToken`.  The leading space is not consumed
beforehand (the `putback` in `Helper::Char`). -/
def spaceStep (s : LexState) : StepOut :=
  if s.tok = .newline ∨ s.tok = .indent ∨ s.tok = .dedent then
    indentStep s
  else
    .again { s with input := (spacesCount s.input).2 }

/-- `Lexer::Helper::Char` (lexer.cpp:283-332) together with
`Helper::Operation` (lexer.cpp:236-264) and `Helper::Comment`
(lexer.cpp:276-281): `c` is the first input byte and `rest` the input
after it. -/
def charStep (c : Char) (rest : List Char) (s : LexState) : StepOut :=
  if c = '\n' then
    -- a newline right after the start sentinel or another newline is
    -- suppressed (lexer.cpp:286-291)
    if s.tok = .eof ∨ s.tok = .newline then
      .again { s with input := rest }
    else
      .tok .newline { s with input := rest }
  else if isSimpleOp c then
    .tok (.char c) { s with input := rest }
  else if c = '=' then
    match rest with
    | '=' :: r2 => .tok .eq { s with input := r2 }
    | _ => .tok (.char '=') { s with input := rest }
  else if c = '!' then
    match rest with
    | '=' :: r2 => .tok .notEq { s with input := r2 }
    | _ => .err "Operation(): '!?'"
  else if c = '>' then
    match rest with
    | '=' :: r2 => .tok .greaterOrEq { s with input := r2 }
    | _ => .tok (.char '>') { s with input := rest }
  else if c = '<' then
    match rest with
    | '=' :: r2 => .tok .lessOrEq { s with input := r2 }
    | _ => .tok (.char '<') { s with input := rest }
  else if c = ' ' then
    spaceStep s
  else if c = '#' then
    .again { s with input := commentSkip rest }
  else if c = '_' then
    let (t, s') := helperId s
    .tok t s'
  else
    -- default of the switch: the byte is consumed and an Eof token is
    -- produced (lexer.cpp:331)
    .tok .eof { s with input := rest }

/-- One dispatch round of `Lexer::NextToken` (lexer.cpp:345-370): the
end-of-input chain, or classification of the next byte into
identifier/number/string, everything else going to `Helper::Char`. -/
def step1 (s : LexState) : StepOut :=
  match s.input with
  | [] =>
    -- c == -1: the end-of-input chain of NextToken (lexer.cpp:348-362)
    if s.indentCount ≠ 0 then
      .tok .dedent { s with indentCount := s.indentCount - 1 }
    else if s.tok ≠ .eof ∧ s.tok ≠ .dedent ∧ s.tok ≠ .newline then
      .tok .newline s
    else
      .tok .eof s
  | c :: rest =>
    if c.isAlpha then
      let (t, s') := helperId s
      .tok t s'
    else if c.isDigit then
      let (t, rest') := scanNumberTok s.input
      .tok t { s with input := rest' }
    else if c = '"' ∨ c = '\'' then
      match scanStringTok s.input with
      | .ok (t, rest') => .tok t { s with input := rest' }
      | .error m => .err m
    else
      charStep c rest s

/-- `Lexer::NextToken`, fuel-indexed: iterate `step1` until a token or an
error is produced (each internal re-entry spends one unit of fuel), and
record the produced token in `token_`, as the assignments in `NextToken`
do. -/
def nextToken : Nat → LexState → Except String (LexToken × LexState)
  | 0, _ => .error "fuel exhausted"
  | fuel + 1, s =>
    match step1 s with
    | .tok t s' => .ok (t, { s' with tok := t })
    | .again s' => nextToken fuel s'
    | .err m => .error m

/-- `n` successive calls to `NextToken`, collecting the produced tokens
(each call gets the full per-call fuel budget). -/
def lexSteps (fuel : Nat) : Nat → LexState → Except String (List LexToken × LexState)
  | 0, s => .ok ([], s)
  | n + 1, s =>
    match nextToken fuel s with
    | .error m => .error m
    | .ok (t, s') =>
      match lexSteps fuel n s' with
      | .error m => .error m
      | .ok (ts, s'') => .ok (t :: ts, s'')

/-- Contribution of one token to the Indent-minus-Dedent count. -/
def tokD : LexToken → Int
  | .indent => 1
  | .dedent => -1
  | _ => 0

/-- Number of Indent tokens minus number of Dedent tokens in a list. -/
def tokDelta (ts : List LexToken) : Int :=
  (ts.map tokD).sum

theorem tokDelta_nil : tokDelta [] = 0 := rfl

theorem tokDelta_cons (t : LexToken) (ts : List LexToken) :
    tokDelta (t :: ts) = tokD t + tokDelta ts := by
  simp [tokDelta]

/-- The keyword switch never produces a virtual token. -/
theorem keywordTok_tokD (c : Char) (s : String) : tokD (keywordTok c s) = 0 := by
  unfold keywordTok
  repeat rw [apply_ite tokD]
  simp only [ite_self, tokD]

/-- `Helper::Id` changes the depth counter by exactly the contribution of
the token it produces (it decrements on its Dedent branch and leaves the
counter alone when it scans an identifier or keyword). -/
theorem helperId_count (s : LexState) :
    (helperId s).2.indentCount = s.indentCount + tokD (helperId s).1 := by
  unfold helperId
  split
  · simp [tokD]; ring
  · simp [keywordTok_tokD]

/-- `Helper::Indent` changes the depth counter by exactly the
contribution of its produced token, and leaves it unchanged on its
re-entry branches. -/
theorem indentStep_count (s : LexState) :
    (∀ t s', indentStep s = .tok t s' → s'.indentCount = s.indentCount + tokD t) ∧
    (∀ s', indentStep s = .again s' → s'.indentCount = s.indentCount) := by
  unfold indentStep
  rcases hsp : spacesCount s.input with ⟨n, restSp⟩
  dsimp only
  constructor
  · intro t s' h
    split_ifs at h
    all_goals cases h
    all_goals simp [tokD]
    all_goals ring
  · intro s' h
    split_ifs at h
    all_goals cases h
    all_goals simp

/-- `Helper::Id`, equation form of `helperId_count`. -/
theorem helperId_count_eq (s : LexState) (t : LexToken) (s' : LexState)
    (h : helperId s = (t, s')) : s'.indentCount = s.indentCount + tokD t := by
  have hh := helperId_count s
  rw [h] at hh
  simpa using hh

/-- `Helper::Number` only produces Number tokens. -/
theorem scanNumberTok_tokD (l : List Char) (t : LexToken) (r : List Char)
    (h : scanNumberTok l = (t, r)) : tokD t = 0 := by
  unfold scanNumberTok at h
  cases h
  rfl

/-- `Helper::String` only produces String tokens. -/
theorem scanStringTok_tokD (l : List Char) (t : LexToken) (r : List Char)
    (h : scanStringTok l = .ok (t, r)) : tokD t = 0 := by
  unfold scanStringTok at h
  repeat' split at h
  all_goals cases h
  all_goals rfl

/-- `Helper::Space`: same counter accounting as `Helper::Indent`. -/
theorem spaceStep_count (s : LexState) :
    (∀ t s', spaceStep s = .tok t s' → s'.indentCount = s.indentCount + tokD t) ∧
    (∀ s', spaceStep s = .again s' → s'.indentCount = s.indentCount) := by
  unfold spaceStep
  constructor
  · intro t s' h
    split at h
    · exact (indentStep_count s).1 t s' h
    · cases h
  · intro s' h
    split at h
    · exact (indentStep_count s).2 s' h
    · cases h; rfl

/-- `Helper::Char`: same counter accounting. -/
theorem charStep_count (c : Char) (rest : List Char) (s : LexState) :
    (∀ t s', charStep c rest s = .tok t s' → s'.indentCount = s.indentCount + tokD t) ∧
    (∀ s', charStep c rest s = .again s' → s'.indentCount = s.indentCount) := by
  unfold charStep
  constructor
  · intro t s' h
    repeat' split at h
    all_goals try (exact (spaceStep_count s).1 t s' h)
    all_goals try (cases h)
    all_goals try (simp [tokD]; done)
    all_goals exact helperId_count_eq s _ _ (by assumption)
  · intro s' h
    repeat' split at h
    all_goals try (exact (spaceStep_count s).2 s' h)
    all_goals cases h
    all_goals rfl

/-- One dispatch round changes the depth counter by exactly the
contribution of the token it produces, and internal re-entries leave the
counter unchanged. -/
theorem step1_count (s : LexState) :
    (∀ t s', step1 s = .tok t s' → s'.indentCount = s.indentCount + tokD t) ∧
    (∀ s', step1 s = .again s' → s'.indentCount = s.indentCount) := by
  unfold step1
  constructor
  · intro t s' h
    repeat' split at h
    all_goals try (exact (charStep_count _ _ s).1 t s' h)
    all_goals try (cases h)
    all_goals try (simp [tokD]; done)
    all_goals try (simp [tokD]; omega)
    all_goals try (exact helperId_count_eq s _ _ (by assumption))
    all_goals try (have h0 := scanNumberTok_tokD _ _ _ (by assumption); simp [h0])
    all_goals (have h0 := scanStringTok_tokD _ _ _ (by assumption); simp [h0])
  · intro s' h
    repeat' split at h
    all_goals try (exact (charStep_count _ _ s).2 s' h)
    all_goals cases h

/-- One `NextToken` call changes the depth counter by exactly the
contribution of the token it returns: `+1` for Indent, `-1` for Dedent,
`0` for everything else. -/
theorem nextToken_count :
    ∀ (fuel : Nat) (s : LexState) (t : LexToken) (s' : LexState),
      nextToken fuel s = .ok (t, s') →
      s'.indentCount = s.indentCount + tokD t := by
  intro fuel
  induction fuel with
  | zero => intro s t s' h; simp [nextToken] at h
  | succ n ih =>
    intro s t s' h
    unfold nextToken at h
    cases hstep : step1 s with
    | tok t0 s0 =>
      simp only [hstep] at h
      cases h
      simpa using (step1_count s).1 _ _ hstep
    | again s0 =>
      simp only [hstep] at h
      have hx := ih _ _ _ h
      rw [hx, (step1_count s).2 s0 hstep]
    | err m =>
      simp only [hstep] at h
      cases h

/-- Accumulated over any number of `NextToken` calls: the depth counter
moves by exactly the Indent-minus-Dedent count of the emitted tokens. -/
theorem lexSteps_count :
    ∀ (n fuel : Nat) (s : LexState) (ts : List LexToken) (s' : LexState),
      lexSteps fuel n s = .ok (ts, s') →
      s'.indentCount = s.indentCount + tokDelta ts := by
  intro n
  induction n with
  | zero =>
    intro fuel s ts s' h
    unfold lexSteps at h
    cases h
    simp [tokDelta]
  | succ n ih =>
    intro fuel s ts s' h
    unfold lexSteps at h
    cases h1 : nextToken fuel s with
    | error m => rw [h1] at h; cases h
    | ok p =>
      rw [h1] at h
      cases p with
      | mk t s1 =>
        cases h2 : lexSteps fuel n s1 with
        | error m => simp only [h2] at h; cases h
        | ok q =>
          cases q with
          | mk ts2 s2 =>
            simp only [h2] at h
            cases h
            have e1 := nextToken_count fuel s t s1 h1
            have e2 := ih fuel s1 _ _ h2
            rw [e2, e1, tokDelta_cons]
            ring

/-- C4 (amended): starting from the lexer's initial state, at every
prefix of the emitted token stream the number of Indent tokens minus the
number of Dedent tokens equals the lexer's internal depth counter at
that point.  (It equals the leading-pair depth of the line being scanned
for space-led and identifier-led lines, but not for an unindented line
beginning with a number, string, or operator token, whose pending
Dedents are deferred; see `lexer_dedent_deferred_on_number_line`.) -/
theorem lexer_prefix_indent_balance (fuel n : Nat) (src : String)
    (ts : List LexToken) (s' : LexState)
    (h : lexSteps fuel n (lexInit src) = .ok (ts, s')) :
    tokDelta ts = s'.indentCount := by
  have e := lexSteps_count n fuel (lexInit src) ts s' h
  rw [e]
  simp [lexInit]

/-- Witness for `lexer_prefix_indent_balance` at a concrete input. -/
theorem lexer_prefix_indent_balance_witness :
    tokDelta [.kwIf, .id "x", .char ':', .newline, .indent, .id "y"] = (1 : Int) := by
  have h : lexSteps 20 6 (lexInit "if x:\n  y\n") =
      .ok ([.kwIf, .id "x", .char ':', .newline, .indent, .id "y"],
           { input := ['\n'], indentCount := 1, indentEqual := false, tok := .id "y" }) := by
    rfl
  simpa using lexer_prefix_indent_balance 20 6 "if x:\n  y\n" _ _ h

/-- C4 (counterexample): on the input `"x\n  y\n1\n"`, whose lines never
exceed the current indentation by more than one pair, the line `1` sits
at indentation depth zero (no leading spaces), yet the token stream
prefix that ends with its `Number 1` token contains one Indent and no
Dedent: the Dedent for leaving the `  y` block is not emitted before a
line that begins with a number token, so the prefix count 1 differs from
the line's depth 0. -/
theorem lexer_dedent_deferred_on_number_line :
    lexSteps 20 5 (lexInit "x\n  y\n1\n") =
      .ok ([.id "x", .newline, .indent, .id "y", .newline],
           { input := ['1', '\n'], indentCount := 1, indentEqual := false, tok := .newline }) ∧
    lexSteps 20 6 (lexInit "x\n  y\n1\n") =
      .ok ([.id "x", .newline, .indent, .id "y", .newline, .number 1],
           { input := ['\n'], indentCount := 1, indentEqual := false, tok := .number 1 }) ∧
    tokDelta [.id "x", .newline, .indent, .id "y", .newline, .number 1] = 1 ∧
    spacesCount ['1', '\n'] = (0, ['1', '\n']) := by
  refine ⟨rfl, rfl, by decide, rfl⟩

/-- Once the input is exhausted, the depth counter is zero and the
previous token is Eof, Dedent or Newline, every further `NextToken` call
returns Eof. -/
theorem lexSteps_eof_absorb :
    ∀ (m f : Nat) (flag : Bool) (tk : LexToken),
      tk = .eof ∨ tk = .dedent ∨ tk = .newline →
      lexSteps (f+1) (m+1) ⟨[], 0, flag, tk⟩
        = .ok (List.replicate (m+1) .eof, ⟨[], 0, flag, .eof⟩) := by
  intro m
  induction m with
  | zero =>
    intro f flag tk htok
    have hstep : step1 ⟨[], 0, flag, tk⟩ = .tok .eof ⟨[], 0, flag, tk⟩ := by
      rcases htok with h | h | h <;> simp [step1, h]
    simp [lexSteps, nextToken, hstep]
  | succ m ih =>
    intro f flag tk htok
    have hstep : step1 ⟨[], 0, flag, tk⟩ = .tok .eof ⟨[], 0, flag, tk⟩ := by
      rcases htok with h | h | h <;> simp [step1, h]
    have hnt : nextToken (f+1) ⟨[], 0, flag, tk⟩ = .ok (.eof, ⟨[], 0, flag, .eof⟩) := by
      unfold nextToken
      rw [hstep]
    have ihh := ih f flag .eof (Or.inl rfl)
    unfold lexSteps
    simp only [hnt, ihh]
    simp [List.replicate_succ]

/-- C5: at end of input the lexer emits one Dedent per remaining depth
level until the counter is zero, then a single Newline only if the token
before the check is not Eof, Dedent or Newline (after any Dedent the
check sees a Dedent, so no Newline follows a Dedent chain), then Eof;
and after the first Eof every further `NextToken` call returns Eof, for
any number `m` of further calls. -/
theorem lexer_eof_chain (k m f : Nat) (flag : Bool) (tk : LexToken) :
    lexSteps (f+1)
        (k + (if k = 0 ∧ ¬(tk = .eof ∨ tk = .dedent ∨ tk = .newline) then 1 else 0) + (m+1))
        ⟨[], (k : Int), flag, tk⟩
      = .ok (List.replicate k .dedent ++
             (if k = 0 ∧ ¬(tk = .eof ∨ tk = .dedent ∨ tk = .newline) then [.newline] else []) ++
             List.replicate (m+1) .eof,
             ⟨[], 0, flag, .eof⟩) := by
  induction k generalizing tk with
  | zero =>
    simp only [Nat.cast_zero, List.replicate_zero, List.nil_append, true_and]
    by_cases hc : tk = .eof ∨ tk = .dedent ∨ tk = .newline
    · simpa [hc] using lexSteps_eof_absorb m f flag tk hc
    · have hstep : step1 ⟨[], 0, flag, tk⟩ = .tok .newline ⟨[], 0, flag, tk⟩ := by
        push_neg at hc
        simp [step1, hc.1, hc.2.1, hc.2.2]
      have hnt : nextToken (f+1) ⟨[], 0, flag, tk⟩
          = .ok (.newline, ⟨[], 0, flag, .newline⟩) := by
        unfold nextToken
        rw [hstep]
      have habs := lexSteps_eof_absorb m f flag .newline (Or.inr (Or.inr rfl))
      have harith : 0 + (if ¬(tk = .eof ∨ tk = .dedent ∨ tk = .newline) then 1 else 0) + (m+1)
          = (m+1) + 1 := by
        simp [hc]
        omega
      rw [harith]
      unfold lexSteps
      simp only [hnt, habs]
      simp [hc]
  | succ k ih =>
    have hcast : ((k+1 : Nat) : Int) = (k : Int) + 1 := by push_cast; ring
    rw [hcast]
    have hne : ((k : Int) + 1) ≠ 0 := by omega
    have hstep : step1 ⟨[], (k : Int) + 1, flag, tk⟩
        = .tok .dedent ⟨[], (k : Int), flag, tk⟩ := by
      simp [step1, hne]
    have hnt : nextToken (f+1) ⟨[], (k : Int) + 1, flag, tk⟩
        = .ok (.dedent, ⟨[], (k : Int), flag, .dedent⟩) := by
      unfold nextToken
      rw [hstep]
    have ihh := ih .dedent
    simp only [reduceCtorEq, or_false, false_or, not_true_eq_false, and_false, if_false,
      Nat.add_zero, List.append_nil] at ihh
    have harith : (k+1) + (if (k+1 : Nat) = 0 ∧ ¬(tk = .eof ∨ tk = .dedent ∨ tk = .newline)
        then 1 else 0) + (m+1) = (k + (m+1)) + 1 := by
      simp
      omega
    rw [harith]
    unfold lexSteps
    simp only [hnt, ihh]
    simp [List.replicate_succ]

/-- A list that does not start with a space has no leading-space run. -/
theorem spacesCount_nonspace (l : List Char) (h : l.headD 'x' ≠ ' ') :
    spacesCount l = (0, l) := by
  cases l with
  | nil => rfl
  | cons c rest =>
    unfold spacesCount
    split
    · rename_i heq
      cases heq
      simp at h
    · rfl

/-- Leading-space run of `n` spaces followed by a non-space suffix. -/
theorem spacesCount_replicate (n : Nat) (l : List Char) (h : spacesCount l = (0, l)) :
    spacesCount (List.replicate n ' ' ++ l) = (n, l) := by
  induction n with
  | zero => simpa using h
  | succ n ih =>
    rw [List.replicate_succ, List.cons_append]
    unfold spacesCount
    simp only [ih]

/-- A `NextToken` call whose first dispatch round re-enters is the
`NextToken` call on the re-entry state. -/
theorem nextToken_again (f : Nat) (s s' : LexState) (h : step1 s = .again s') :
    nextToken (f+1) s = nextToken f s' := by
  conv_lhs => unfold nextToken
  rw [h]

/-- A `NextToken` call whose first dispatch round hits a lex error
reports that error. -/
theorem nextToken_err (f : Nat) (s : LexState) (m : String) (h : step1 s = .err m) :
    nextToken (f+1) s = .error m := by
  conv_lhs => unfold nextToken
  rw [h]

/-- C9 (amended): a line at a line start consisting only of spaces
followed by a newline is consumed without raising the odd-indentation
error even for an odd space count, without changing the depth counter
and without emitting any token: the `NextToken` call equals the
`NextToken` call on the input after that line (first conjunct).  The
odd-count error is raised exactly when the leading spaces are not
followed by a newline: for lines with content after the spaces, and also
for a spaces-only line terminated by end of input (second conjunct; see
`lexer_odd_spaces_only_eof_line` for the latter). -/
theorem lexer_blank_line_skip :
    (∀ (f n : Nat) (rest : List Char) (cnt : Int) (flag : Bool), 0 < n →
      nextToken (f+2) ⟨List.replicate n ' ' ++ '\n' :: rest, cnt, flag, .newline⟩
        = nextToken f ⟨rest, cnt, false, .newline⟩) ∧
    (∀ (f n : Nat) (rest : List Char) (cnt : Int) (flag : Bool),
      n % 2 = 1 → rest.headD 'x' ≠ ' ' → rest.headD ' ' ≠ '\n' →
      nextToken (f+1) ⟨List.replicate n ' ' ++ rest, cnt, flag, .newline⟩
        = .error "Indent(): odd spaces") := by
  constructor
  · intro f n rest cnt flag hn
    obtain ⟨j, rfl⟩ : ∃ j, n = j + 1 := ⟨n - 1, by omega⟩
    have hsp : spacesCount (' ' :: (List.replicate j ' ' ++ '\n' :: rest))
        = (j+1, '\n' :: rest) := by
      rw [← List.cons_append, ← List.replicate_succ]
      exact spacesCount_replicate _ _ (spacesCount_nonspace _ (by simp))
    have hstep1 : step1 ⟨' ' :: (List.replicate j ' ' ++ '\n' :: rest), cnt, flag, .newline⟩
        = .again ⟨'\n' :: rest, cnt, false, .newline⟩ := by
      simp [step1, charStep, spaceStep, indentStep, isSimpleOp, hsp]
    have hstep2 : step1 ⟨'\n' :: rest, cnt, false, .newline⟩
        = .again ⟨rest, cnt, false, .newline⟩ := by
      simp [step1, charStep]
    rw [List.replicate_succ, List.cons_append]
    show nextToken (f+1+1) _ = _
    rw [nextToken_again _ _ _ hstep1, nextToken_again _ _ _ hstep2]
  · intro f n rest cnt flag hodd h1 h2
    obtain ⟨j, rfl⟩ : ∃ j, n = j + 1 := ⟨n - 1, by omega⟩
    have hsp : spacesCount (' ' :: (List.replicate j ' ' ++ rest)) = (j+1, rest) := by
      rw [← List.cons_append, ← List.replicate_succ]
      exact spacesCount_replicate _ _ (spacesCount_nonspace _ h1)
    have hstep1 : step1 ⟨' ' :: (List.replicate j ' ' ++ rest), cnt, flag, .newline⟩
        = .err "Indent(): odd spaces" := by
      simp [step1, charStep, spaceStep, indentStep, isSimpleOp, hsp, hodd]
      simpa [List.headD_eq_head?] using h2
    rw [List.replicate_succ, List.cons_append]
    exact nextToken_err _ _ _ hstep1

/-- C9 (counterexample to the second clause of the claim as stated): the
final line of `"x\n   "` consists of three spaces with no content after
them — leading spaces followed by end of input, not by a newline — and
scanning it does raise the odd-indentation error, so the error is not
raised "only for lines that have content after their leading spaces". -/
theorem lexer_odd_spaces_only_eof_line :
    lexSteps 20 3 (lexInit "x\n   ") = .error "Indent(): odd spaces" := rfl

/-- Witness for `lexer_blank_line_skip` at concrete inputs: a blank line
of three (odd) spaces before `x` is skipped; three spaces before a `y`
(content after the spaces) raise the odd-indentation error. -/
theorem lexer_blank_line_skip_witness :
    nextToken 7 ⟨List.replicate 3 ' ' ++ '\n' :: ['x'], 2, false, .newline⟩
      = nextToken 5 ⟨['x'], 2, false, .newline⟩ ∧
    nextToken 6 ⟨List.replicate 3 ' ' ++ ['y'], 0, false, .newline⟩
      = .error "Indent(): odd spaces" :=
  ⟨lexer_blank_line_skip.1 5 3 ['x'] 2 false (by decide),
   lexer_blank_line_skip.2 5 3 ['y'] 0 false (by decide) (by decide) (by decide)⟩

/-! ## Runtime: values, holders, closures (runtime.h / runtime.cpp) -/

/-- Heap address of a runtime object.  C++ `ObjectHolder`s are
`shared_ptr`s; in the embedding every live object sits in a heap
(a list of objects indexed by address) and a holder is either empty
(`none`, the "None" value) or an address.  Copying a holder copies the
address, so copies share the underlying object, exactly as shared
pointers do; the owning/non-owning distinction of the source
(`ObjectHolder::Own` vs `ObjectHolder::Share`) affects only lifetimes,
which the heap model keeps trivially, so both map to the same address
holder. -/
abbrev Addr := Nat

/-- `runtime::ObjectHolder`: possibly empty reference to a value. -/
abbrev ObjHolder := Option Addr

/-- `runtime::Closure`: a map from identifier to holder
(`unordered_map<string, ObjectHolder>`), modelled as an association
list with unique keys. -/
abbrev Closure := List (String × ObjHolder)

/-- Lookup (`closure.find(name)`); keys are unique, so the first match
is the entry. -/
def closureFind : Closure → String → Option ObjHolder
  | [], _ => none
  | (k', v) :: t, k => if k' = k then some v else closureFind t k

/-- `closure[name] = value`: replace the entry if the key is present,
otherwise add it. -/
def closureSet : Closure → String → ObjHolder → Closure
  | [], k, v => [(k, v)]
  | (k', v') :: t, k, v =>
    if k' = k then (k, v) :: t else (k', v') :: closureSet t k v

/-- `closure.insert({name, value})`: `unordered_map::insert` does not
overwrite an existing key. -/
def closureInsert (c : Closure) (k : String) (v : ObjHolder) : Closure :=
  match closureFind c k with
  | some _ => c
  | none => c ++ [(k, v)]

/-- The comparator a `Comparison` node carries (`Comparator cmp_`); the
parser passes `runtime::Equal`, `runtime::NotEqual`, `runtime::Less`,
`runtime::Greater`, `runtime::LessOrEqual` or `runtime::GreaterOrEqual`. -/
inductive CmpOp where
  | ceq
  | cne
  | clt
  | cgt
  | cle
  | cge
deriving DecidableEq, Repr

mutual
/-- AST statement/expression nodes of statement.h as executed by
statement.cpp.  `VariableValue` carries both of its fields (`var_name_`,
`dotted_ids_`), one of which is unused depending on the constructor the
parser chose; `FieldAssignment` carries the components of its
`VariableValue object_` member. -/
inductive Stmt where
  | assignment (name : String) (rhs : Stmt)
  | variableValue (varName : String) (dottedIds : List String)
  | print (args : List Stmt)
  | methodCall (obj : Stmt) (method : String) (args : List Stmt)
  | stringify (arg : Stmt)
  | add (lhs rhs : Stmt)
  | sub (lhs rhs : Stmt)
  | mult (lhs rhs : Stmt)
  | div (lhs rhs : Stmt)
  | compound (stmts : List Stmt)
  | ret (arg : Stmt)
  | classDefinition (cls : ClassVal)
  | fieldAssignment (objName : String) (objDotted : List String) (name : String) (rhs : Stmt)
  | ifElse (cond : Stmt) (thenBody : Stmt) (elseBody : Option Stmt)
  | orStmt (lhs rhs : Stmt)
  | andStmt (lhs rhs : Stmt)
  | notStmt (arg : Stmt)
  | comparison (op : CmpOp) (lhs rhs : Stmt)
  | newInstance (cls : ClassVal) (args : List Stmt)
  | methodBody (body : Stmt)

/-- `runtime::Class`: name, method list, optional parent. -/
inductive ClassVal where
  | mk (name : String) (methods : List MethodVal) (parent : Option ClassVal)

/-- `runtime::Method`: name, formal parameter names, body. -/
inductive MethodVal where
  | mk (name : String) (formalParams : List String) (body : Stmt)
end

def ClassVal.name : ClassVal → String
  | .mk n _ _ => n

def MethodVal.name : MethodVal → String
  | .mk n _ _ => n

def MethodVal.formalParams : MethodVal → List String
  | .mk _ ps _ => ps

def MethodVal.body : MethodVal → Stmt
  | .mk _ _ b => b

/-- `Class::GetMethod` (runtime.cpp:105-113): first method with the
name in the own list, else recurse into the parent. -/
def ClassVal.getMethod : ClassVal → String → Option MethodVal
  | .mk _ ms p, target =>
    match ms.find? (fun m => m.name = target) with
    | some m => some m
    | none =>
      match p with
      | some par => par.getMethod target
      | none => none

/-- `ClassInstance::HasMethod` (runtime.cpp:69-74): the method exists
and its formal parameter count equals the argument count. -/
def hasMethod (cv : ClassVal) (method : String) (argCount : Nat) : Bool :=
  match cv.getMethod method with
  | some m => m.formalParams.length = argCount
  | none => false

/-- A runtime object (`runtime::Object` hierarchy): `Number`, `String`,
`Bool`, `Class`, `ClassInstance` (class plus mutable field closure). -/
inductive Obj where
  | num (n : Int)
  | str (s : String)
  | boolV (b : Bool)
  | clsV (c : ClassVal)
  | inst (c : ClassVal) (fields : Closure)

/-- The interpreter's mutable world: the heap of allocated objects and
the output stream of the `Context`. -/
structure RState where
  heap : List Obj
  output : String

/-- Read the object at an address. -/
def heapGet (st : RState) (a : Addr) : Option Obj :=
  st.heap.get? a

/-- Overwrite the object at an address. -/
def heapSet (st : RState) (a : Addr) (o : Obj) : RState :=
  { st with heap := st.heap.set a o }

/-- `ObjectHolder::Own(...)`: allocate a fresh object, returning its
address. -/
def alloc (st : RState) (o : Obj) : Addr × RState :=
  (st.heap.length, { st with heap := st.heap ++ [o] })

/-- `holder.TryAs<Number>()`. -/
def asNumber (st : RState) (h : ObjHolder) : Option Int :=
  match h with
  | some a =>
    match heapGet st a with
    | some (.num n) => some n
    | _ => none
  | none => none

/-- `holder.TryAs<String>()`. -/
def asString (st : RState) (h : ObjHolder) : Option String :=
  match h with
  | some a =>
    match heapGet st a with
    | some (.str s) => some s
    | _ => none
  | none => none

/-- `holder.TryAs<Bool>()`. -/
def asBool (st : RState) (h : ObjHolder) : Option Bool :=
  match h with
  | some a =>
    match heapGet st a with
    | some (.boolV b) => some b
    | _ => none
  | none => none

/-- `holder.TryAs<ClassInstance>()`: address and class of the instance. -/
def asInst (st : RState) (h : ObjHolder) : Option (Addr × ClassVal) :=
  match h with
  | some a =>
    match heapGet st a with
    | some (.inst c _) => some (a, c)
    | _ => none
  | none => none

/-- `holder.TryAs<ClassInstance>()->Fields()`. -/
def asInstFields (st : RState) (h : ObjHolder) : Option Closure :=
  match h with
  | some a =>
    match heapGet st a with
    | some (.inst _ f) => some f
    | _ => none
  | none => none

/-- How an execution step fails.  All errors thrown by the interpreter
sources are `std::runtime_error`s with a message (`rte`).  `crash` marks
the null-pointer dereferences the source can reach (undefined behaviour,
not an exception: it aborts the program and is not catchable).  `fuelOut`
is the embedding's fuel exhaustion, identified with no program
behaviour. -/
inductive RErr where
  | rte (msg : String)
  | crash (msg : String)
  | fuelOut
deriving DecidableEq, Repr

/-- The loop of `VariableValue::Execute` for the dotted form
(statement.cpp:37-49): walk the ids; each id is looked up in the current
lookup closure; when found, the running result becomes that holder, and
only if it is a ClassInstance does the lookup closure move to its field
closure; a missing id throws.  The running result starts as the empty
holder (`ObjectHolder result;`). -/
def varLookupLoop (st : RState) : Closure → ObjHolder → List String → Except String ObjHolder
  | _, result, [] => .ok result
  | cl, _, id :: rest =>
    match closureFind cl id with
    | some h =>
      varLookupLoop st
        (match asInstFields st h with
         | some f => f
         | none => cl) h rest
    | none => .error "VariableValue(dotted.?)"

/-- `VariableValue::Execute` (statement.cpp:32-53): the simple name is
looked up in the environment when `var_name_` is nonempty; otherwise a
nonempty dotted list is walked; every other case (and a missing simple
name) throws. -/
def varValue (st : RState) (c : Closure) (vn : String) (ids : List String) :
    Except String ObjHolder :=
  if vn ≠ "" then
    match closureFind c vn with
    | some h => .ok h
    | none => .error "VariableValue(?)"
  else if ids ≠ [] then
    varLookupLoop st c none ids
  else
    .error "VariableValue(?)"

/-- The parameter-binding loop of `ClassInstance::Call`
(runtime.cpp:96-97): `insert` each formal/actual pair in order (without
overwriting an existing key). -/
def bindParams : Closure → List String → List ObjHolder → Closure
  | c, [], _ => c
  | c, _, [] => c
  | c, p :: ps, a :: rest => bindParams (closureInsert c p a) ps rest

mutual
/-- `Statement::Execute` of every node class of statement.cpp,
fuel-indexed.  The result is the produced holder plus the updated frame
closure and world; an error carries the frame closure and world at the
moment of the throw (C++ mutable state survives stack unwinding). -/
def exec : Nat → Stmt → Closure → RState →
    Except (RErr × Closure × RState) (ObjHolder × Closure × RState)
  | 0, _, c, st => .error (.fuelOut, c, st)
  | fuel+1, stmt, c, st =>
    match stmt with
    | .assignment name rhs =>
      -- statement.cpp:19-21: return closure[name_] = value_->Execute(...)
      match exec fuel rhs c st with
      | .ok (h, c1, st1) => .ok (h, closureSet c1 name h, st1)
      | .error e => .error e
    | .variableValue vn ids =>
      match varValue st c vn ids with
      | .ok h => .ok (h, c, st)
      | .error m => .error (.rte m, c, st)
    | .print args =>
      -- statement.cpp:65-81
      match printArgs fuel true args c st with
      | .ok (c1, st1) => .ok (none, c1, { st1 with output := st1.output ++ "\n" })
      | .error e => .error e
    | .methodCall objStmt mname args =>
      -- statement.cpp:87-100
      match exec fuel objStmt c st with
      | .error e => .error e
      | .ok (h, c1, st1) =>
        match asInst st1 h with
        | none => .error (.rte "MethodCall(? object,,)", c1, st1)
        | some (a, cv) =>
          if hasMethod cv mname args.length then
            match execArgs fuel args c1 st1 with
            | .error e => .error e
            | .ok (hs, c2, st2) =>
              match callMethod fuel a mname hs st2 with
              | .ok (hr, st3) => .ok (hr, c2, st3)
              | .error (e, st3) => .error (e, c2, st3)
          else
            .error (.rte "MethodCall(,? method,)", c1, st1)
    | .stringify arg =>
      -- statement.cpp:102-116
      match exec fuel arg c st with
      | .error e => .error e
      | .ok (h, c1, st1) =>
        match h with
        | some a =>
          match printTo fuel a st1 with
          | .ok (txt, st2) =>
            let (a2, st3) := alloc st2 (.str txt)
            .ok (some a2, c1, st3)
          | .error (e, st2) => .error (e, c1, st2)
        | none =>
          let (a2, st2) := alloc st1 (.str "None")
          .ok (some a2, c1, st2)
    | .add lhs rhs =>
      -- statement.cpp:118-154
      match exec fuel lhs c st with
      | .error e => .error e
      | .ok (hl, c1, st1) =>
        match exec fuel rhs c1 st1 with
        | .error e => .error e
        | .ok (hr, c2, st2) =>
          match asNumber st2 hl with
          | some n1 =>
            match asNumber st2 hr with
            | some n2 =>
              let (a, st3) := alloc st2 (.num (n1 + n2))
              .ok (some a, c2, st3)
            | none => .error (.rte "Add(Number, ?)", c2, st2)
          | none =>
            match asString st2 hl with
            | some s1 =>
              match asString st2 hr with
              | some s2 =>
                let (a, st3) := alloc st2 (.str (s1 ++ s2))
                .ok (some a, c2, st3)
              | none => .error (.rte "Add(String, ?)", c2, st2)
            | none =>
              match asInst st2 hl with
              | some (a, cv) =>
                if hasMethod cv "__add__" 1 then
                  match callMethod fuel a "__add__" [hr] st2 with
                  | .ok (hr2, st3) => .ok (hr2, c2, st3)
                  | .error (e, st3) => .error (e, c2, st3)
                else
                  .error (.rte "Add(?, ?)", c2, st2)
              | none => .error (.rte "Add(?, ?)", c2, st2)
    | .sub lhs rhs =>
      -- statement.cpp:156-172
      match exec fuel lhs c st with
      | .error e => .error e
      | .ok (hl, c1, st1) =>
        match exec fuel rhs c1 st1 with
        | .error e => .error e
        | .ok (hr, c2, st2) =>
          match asNumber st2 hl with
          | some n1 =>
            match asNumber st2 hr with
            | some n2 =>
              let (a, st3) := alloc st2 (.num (n1 - n2))
              .ok (some a, c2, st3)
            | none => .error (.rte "Sub(Number, ?)", c2, st2)
          | none => .error (.rte "Sub(?, ?)", c2, st2)
    | .mult lhs rhs =>
      -- statement.cpp:174-190
      match exec fuel lhs c st with
      | .error e => .error e
      | .ok (hl, c1, st1) =>
        match exec fuel rhs c1 st1 with
        | .error e => .error e
        | .ok (hr, c2, st2) =>
          match asNumber st2 hl with
          | some n1 =>
            match asNumber st2 hr with
            | some n2 =>
              let (a, st3) := alloc st2 (.num (n1 * n2))
              .ok (some a, c2, st3)
            | none => .error (.rte "Mult(Number, ?)", c2, st2)
          | none => .error (.rte "Mult(?, ?)", c2, st2)
    | .div lhs rhs =>
      -- statement.cpp:192-211; C++ integer division truncates toward
      -- zero, `Int.tdiv`
      match exec fuel lhs c st with
      | .error e => .error e
      | .ok (hl, c1, st1) =>
        match exec fuel rhs c1 st1 with
        | .error e => .error e
        | .ok (hr, c2, st2) =>
          match asNumber st2 hl with
          | some n1 =>
            match asNumber st2 hr with
            | some n2 =>
              if n2 = 0 then
                .error (.rte "Div(Number, 0): divide by zero", c2, st2)
              else
                let (a, st3) := alloc st2 (.num (Int.tdiv n1 n2))
                .ok (some a, c2, st3)
            | none => .error (.rte "Div(Number, ?)", c2, st2)
          | none => .error (.rte "Div(?, ?)", c2, st2)
    | .compound stmts =>
      -- statement.cpp:213-217
      match execSeq fuel stmts c st with
      | .ok (c1, st1) => .ok (none, c1, st1)
      | .error e => .error e
    | .ret arg =>
      -- statement.cpp:219-222: stash under "return", then throw
      match exec fuel arg c st with
      | .ok (h, c1, st1) => .error (.rte "return", closureSet c1 "return" h, st1)
      | .error e => .error e
    | .classDefinition cv =>
      -- statement.cpp:226-230: closure[name] = NewInstance(cls)->Execute
      match exec fuel (.newInstance cv []) c st with
      | .ok (h, c1, st1) => .ok (h, closureSet c1 cv.name h, st1)
      | .error e => .error e
    | .fieldAssignment ovn oids fname rhs =>
      -- statement.cpp:236-243
      match varValue st c ovn oids with
      | .error m => .error (.rte m, c, st)
      | .ok h =>
        match asInst st h with
        | none => .error (.rte "FieldAssignment: haven't object", c, st)
        | some (a, _) =>
          match exec fuel rhs c st with
          | .error e => .error e
          | .ok (hv, c1, st1) =>
            match heapGet st1 a with
            | some (.inst cv flds) =>
              .ok (hv, c1, heapSet st1 a (.inst cv (closureSet flds fname hv)))
            | _ => .error (.crash "FieldAssignment: receiver vanished", c1, st1)
    | .ifElse cond tb eb =>
      -- statement.cpp:250-258; note the missing null check on the
      -- condition: a non-Bool condition dereferences a null pointer
      match exec fuel cond c st with
      | .error e => .error e
      | .ok (h, c1, st1) =>
        match asBool st1 h with
        | none => .error (.crash "IfElse: cond->GetValue() on null", c1, st1)
        | some b =>
          if b then
            exec fuel tb c1 st1
          else
            match eb with
            | some e2 => exec fuel e2 c1 st1
            | none => .ok (none, c1, st1)
    | .orStmt lhs rhs =>
      -- statement.cpp:260-275
      match exec fuel lhs c st with
      | .error e => .error e
      | .ok (hl, c1, st1) =>
        match asBool st1 hl with
        | none => .error (.rte "Or(?, ?)", c1, st1)
        | some b1 =>
          if b1 then
            .ok (hl, c1, st1)
          else
            match exec fuel rhs c1 st1 with
            | .error e => .error e
            | .ok (hr, c2, st2) =>
              match asBool st2 hr with
              | some _ => .ok (hr, c2, st2)
              | none => .error (.rte "Or(?, ?)", c2, st2)
    | .andStmt lhs rhs =>
      -- statement.cpp:277-292
      match exec fuel lhs c st with
      | .error e => .error e
      | .ok (hl, c1, st1) =>
        match asBool st1 hl with
        | none => .error (.rte "And(?, ?)", c1, st1)
        | some b1 =>
          if b1 then
            match exec fuel rhs c1 st1 with
            | .error e => .error e
            | .ok (hr, c2, st2) =>
              match asBool st2 hr with
              | some _ => .ok (hr, c2, st2)
              | none => .error (.rte "And(?, ?)", c2, st2)
          else
            .ok (hl, c1, st1)
    | .notStmt arg =>
      -- statement.cpp:294-300
      match exec fuel arg c st with
      | .error e => .error e
      | .ok (h, c1, st1) =>
        match asBool st1 h with
        | some b =>
          let (a, st2) := alloc st1 (.boolV (!b))
          .ok (some a, c1, st2)
        | none => .error (.rte "Not(?)", c1, st1)
    | .comparison op lhs rhs =>
      -- statement.cpp:305-309
      match exec fuel lhs c st with
      | .error e => .error e
      | .ok (hl, c1, st1) =>
        match exec fuel rhs c1 st1 with
        | .error e => .error e
        | .ok (hr, c2, st2) =>
          match applyCmp fuel op hl hr st2 with
          | .ok (b, st3) =>
            let (a, st4) := alloc st3 (.boolV b)
            .ok (some a, c2, st4)
          | .error (e, st3) => .error (e, c2, st3)
    | .newInstance cv args =>
      -- statement.cpp:317-331: allocate first, then __init__ if its
      -- arity matches the argument count
      let (a, st1) := alloc st (.inst cv [])
      if hasMethod cv "__init__" args.length then
        match execArgs fuel args c st1 with
        | .error e => .error e
        | .ok (hs, c1, st2) =>
          match callMethod fuel a "__init__" hs st2 with
          | .ok (_, st3) => .ok (some a, c1, st3)
          | .error (e, st3) => .error (e, c1, st3)
      else
        .ok (some a, c, st1)
    | .methodBody body =>
      -- statement.cpp:336-347: catch every runtime_error; on message
      -- "return" yield the stash (or empty), on anything else yield
      -- empty; only non-exception failures get past the catch
      match exec fuel body c st with
      | .ok (_, c1, st1) => .ok (none, c1, st1)
      | .error (.rte msg, c1, st1) =>
        if msg = "return" then
          match closureFind c1 "return" with
          | some h => .ok (h, c1, st1)
          | none => .ok (none, c1, st1)
        else
          .ok (none, c1, st1)
      | .error e => .error e

/-- `Compound::Execute`'s loop (statement.cpp:214-215). -/
def execSeq : Nat → List Stmt → Closure → RState →
    Except (RErr × Closure × RState) (Closure × RState)
  | 0, _, c, st => .error (.fuelOut, c, st)
  | _+1, [], c, st => .ok (c, st)
  | fuel+1, stmt :: rest, c, st =>
    match exec fuel stmt c st with
    | .ok (_, c1, st1) => execSeq fuel rest c1 st1
    | .error e => .error e

/-- Left-to-right evaluation of argument lists into holders
(statement.cpp:95-97 and 323-325). -/
def execArgs : Nat → List Stmt → Closure → RState →
    Except (RErr × Closure × RState) (List ObjHolder × Closure × RState)
  | 0, _, c, st => .error (.fuelOut, c, st)
  | _+1, [], c, st => .ok ([], c, st)
  | fuel+1, a :: rest, c, st =>
    match exec fuel a c st with
    | .error e => .error e
    | .ok (h, c1, st1) =>
      match execArgs fuel rest c1 st1 with
      | .ok (hs, c2, st2) => .ok (h :: hs, c2, st2)
      | .error e => .error e

/-- The loop of `Print::Execute` (statement.cpp:66-78): separator before
each argument but the first, then the argument's printed form (empty
holders print as None). -/
def printArgs : Nat → Bool → List Stmt → Closure → RState →
    Except (RErr × Closure × RState) (Closure × RState)
  | 0, _, _, c, st => .error (.fuelOut, c, st)
  | _+1, _, [], c, st => .ok (c, st)
  | fuel+1, isFirst, a :: rest, c, st =>
    let st0 := if isFirst then st else { st with output := st.output ++ " " }
    match exec fuel a c st0 with
    | .error e => .error e
    | .ok (h, c1, st1) =>
      match h with
      | none => printArgs fuel false rest c1 { st1 with output := st1.output ++ "None" }
      | some a2 =>
        match printTo fuel a2 st1 with
        | .error (e, st2) => .error (e, c1, st2)
        | .ok (txt, st2) => printArgs fuel false rest c1 { st2 with output := st2.output ++ txt }

/-- `Object::Print` of each value class (runtime.cpp:57-67, 119-125, and
the `ValueObject` printers of runtime.h): the text written to the given
stream is returned; side effects of a `__str__` body (which writes to
the context's stream) land in the returned state. -/
def printTo : Nat → Addr → RState → Except (RErr × RState) (String × RState)
  | 0, _, st => .error (.fuelOut, st)
  | fuel+1, a, st =>
    match heapGet st a with
    | some (.num n) => .ok (toString n, st)
    | some (.str s) => .ok (s, st)
    | some (.boolV b) => .ok (if b then "True" else "False", st)
    | some (.clsV cv) => .ok ("Class " ++ cv.name, st)
    | some (.inst cv _) =>
      -- ClassInstance::Print (runtime.cpp:57-67)
      if hasMethod cv "__str__" 0 then
        match callMethod fuel a "__str__" [] st with
        | .error e => .error e
        | .ok (h, st1) =>
          match h with
          | none => .ok ("None", st1)
          | some a2 => printTo fuel a2 st1
      else
        -- os << this: an implementation-defined identity token
        .ok ("0x" ++ toString a, st)
    | none => .error (.crash "Print: dangling address", st)

/-- `ClassInstance::Call` (runtime.cpp:86-100): re-check the method,
seed a fresh closure with `self` sharing the receiver's address, insert
the formal/actual pairs, execute the body.  The callee closure dies with
the call. -/
def callMethod : Nat → Addr → String → List ObjHolder → RState →
    Except (RErr × RState) (ObjHolder × RState)
  | 0, _, _, _, st => .error (.fuelOut, st)
  | fuel+1, a, mname, args, st =>
    match heapGet st a with
    | some (.inst cv _) =>
      if hasMethod cv mname args.length then
        match cv.getMethod mname with
        | some m =>
          let c1 := bindParams [("self", some a)] m.formalParams args
          match exec fuel m.body c1 st with
          | .ok (h, _, st1) => .ok (h, st1)
          | .error (e, _, st1) => .error (e, st1)
        | none => .error (.crash "Call: unreachable", st)
      else
        .error (.rte "Not implemented", st)
    | _ => .error (.crash "Call on a non-instance", st)

/-- `runtime::Equal` (runtime.cpp:127-176). -/
def equalFn : Nat → ObjHolder → ObjHolder → RState → Except (RErr × RState) (Bool × RState)
  | 0, _, _, st => .error (.fuelOut, st)
  | fuel+1, l, r, st =>
    match l with
    | none =>
      match r with
      | none => .ok (true, st)
      | some _ => .error (.rte "Cannot compare objects for equality", st)
    | some _ =>
      match asBool st l with
      | some b1 =>
        match asBool st r with
        | some b2 => .ok (b1 == b2, st)
        | none => .error (.rte "Cannot compare objects for equality", st)
      | none =>
        match asNumber st l with
        | some n1 =>
          match asNumber st r with
          | some n2 => .ok (n1 == n2, st)
          | none => .error (.rte "Cannot compare objects for equality", st)
        | none =>
          match asString st l with
          | some s1 =>
            match asString st r with
            | some s2 => .ok (s1 == s2, st)
            | none => .error (.rte "Cannot compare objects for equality", st)
          | none =>
            match asInst st l with
            | some (a, cv) =>
              if hasMethod cv "__eq__" 1 then
                match callMethod fuel a "__eq__" [r] st with
                | .error e => .error e
                | .ok (h, st1) =>
                  match asBool st1 h with
                  | some b => .ok (b, st1)
                  | none => .error (.crash "Equal: result.TryAs<Bool>() is null", st1)
              else
                .error (.rte "Cannot compare objects for equality", st)
            | none => .error (.rte "Cannot compare objects for equality", st)

/-- `runtime::Less` (runtime.cpp:178-225).  Note the instance-without-
`__lt__` branch throws the equality message (runtime.cpp:220). -/
def lessFn : Nat → ObjHolder → ObjHolder → RState → Except (RErr × RState) (Bool × RState)
  | 0, _, _, st => .error (.fuelOut, st)
  | fuel+1, l, r, st =>
    match l with
    | none => .error (.rte "Cannot compare objects for less", st)
    | some _ =>
      match asBool st l with
      | some b1 =>
        match asBool st r with
        | some b2 => .ok (!b1 && b2, st)
        | none => .error (.rte "Cannot compare objects for less", st)
      | none =>
        match asNumber st l with
        | some n1 =>
          match asNumber st r with
          | some n2 => .ok (decide (n1 < n2), st)
          | none => .error (.rte "Cannot compare objects for less", st)
        | none =>
          match asString st l with
          | some s1 =>
            match asString st r with
            | some s2 => .ok (decide (s1 < s2), st)
            | none => .error (.rte "Cannot compare objects for less", st)
          | none =>
            match asInst st l with
            | some (a, cv) =>
              if hasMethod cv "__lt__" 1 then
                match callMethod fuel a "__lt__" [r] st with
                | .error e => .error e
                | .ok (h, st1) =>
                  match asBool st1 h with
                  | some b => .ok (b, st1)
                  | none => .error (.crash "Less: result.TryAs<Bool>() is null", st1)
              else
                .error (.rte "Cannot compare objects for equality", st)
            | none => .error (.rte "Cannot compare objects for less", st)

/-- Dispatch of a `Comparison` node's comparator: the parser wires
`Equal`, `NotEqual`, `Less`, `Greater`, `LessOrEqual`, `GreaterOrEqual`
of runtime.cpp; the derived ones are negation and conjunction chains
over `Equal` and `Less` (runtime.cpp:227-241), with C++ `&&`
short-circuit in `Greater`. -/
def applyCmp : Nat → CmpOp → ObjHolder → ObjHolder → RState →
    Except (RErr × RState) (Bool × RState)
  | 0, _, _, _, st => .error (.fuelOut, st)
  | fuel+1, op, l, r, st =>
    match op with
    | .ceq => equalFn fuel l r st
    | .cne =>
      match equalFn fuel l r st with
      | .ok (b, st1) => .ok (!b, st1)
      | .error e => .error e
    | .clt => lessFn fuel l r st
    | .cgt =>
      match lessFn fuel l r st with
      | .error e => .error e
      | .ok (true, st1) => .ok (false, st1)
      | .ok (false, st1) =>
        match equalFn fuel l r st1 with
        | .ok (b, st2) => .ok (!b, st2)
        | .error e => .error e
    | .cle =>
      match lessFn fuel l r st with
      | .error e => .error e
      | .ok (true, st1) => .ok (true, st1)
      | .ok (false, st1) =>
        match equalFn fuel l r st1 with
        | .ok (b, st2) => .ok (b, st2)
        | .error e => .error e
    | .cge =>
      match lessFn fuel l r st with
      | .ok (b, st1) => .ok (!b, st1)
      | .error e => .error e
end

/-- `runtime::NotEqual` (runtime.cpp:227-229): `!Equal(...)`. -/
def notEqualFn (fuel : Nat) (l r : ObjHolder) (st : RState) :
    Except (RErr × RState) (Bool × RState) :=
  match equalFn fuel l r st with
  | .ok (b, st1) => .ok (!b, st1)
  | .error e => .error e

/-- `runtime::Greater` (runtime.cpp:231-233):
`!Less(...) && !Equal(...)` with C++ `&&` short-circuit: when `Less` is
true the result is false and `Equal` is not evaluated. -/
def greaterFn (fuel : Nat) (l r : ObjHolder) (st : RState) :
    Except (RErr × RState) (Bool × RState) :=
  match lessFn fuel l r st with
  | .error e => .error e
  | .ok (true, st1) => .ok (false, st1)
  | .ok (false, st1) =>
    match equalFn fuel l r st1 with
    | .ok (b, st2) => .ok (!b, st2)
    | .error e => .error e

/-- `runtime::LessOrEqual` (runtime.cpp:235-237): `!Greater(...)`. -/
def lessOrEqualFn (fuel : Nat) (l r : ObjHolder) (st : RState) :
    Except (RErr × RState) (Bool × RState) :=
  match greaterFn fuel l r st with
  | .ok (b, st1) => .ok (!b, st1)
  | .error e => .error e

/-- `runtime::GreaterOrEqual` (runtime.cpp:239-241): `!Less(...)`. -/
def greaterOrEqualFn (fuel : Nat) (l r : ObjHolder) (st : RState) :
    Except (RErr × RState) (Bool × RState) :=
  match lessFn fuel l r st with
  | .ok (b, st1) => .ok (!b, st1)
  | .error e => .error e

/-- Setting a key makes it findable with exactly the set holder. -/
theorem closureFind_closureSet (c : Closure) (k : String) (v : ObjHolder) :
    closureFind (closureSet c k v) k = some v := by
  induction c with
  | nil => simp [closureSet, closureFind]
  | cons p t ih =>
    unfold closureSet
    by_cases hk : p.1 = k
    · simp [hk, closureFind]
    · simp [hk, closureFind, ih]

/-- C8: the derived comparison operations are exactly the spec's
formulas over `Equal` and `Less`: `!=` is the negation of `==`; `>` is
the (short-circuit) conjunction of not-`<` and not-`==` — when `<` is
true the result is false without consulting `==`, otherwise it is the
negation of `==` evaluated in the state `<` left behind; `<=` is the
negation of `>`; `>=` is the negation of `<`.  Each equation also
forces agreement on which inputs raise errors: a derived operation
fails exactly when the base formula fails, with the same error. -/
theorem comparison_derived_ops (fuel : Nat) (l r : ObjHolder) (st : RState) :
    notEqualFn fuel l r st
      = (equalFn fuel l r st).map (fun p => (!p.1, p.2)) ∧
    greaterFn fuel l r st
      = (match lessFn fuel l r st with
         | .error e => .error e
         | .ok (lt, st1) =>
           if lt then .ok (false, st1)
           else (equalFn fuel l r st1).map (fun p => (!p.1, p.2))) ∧
    lessOrEqualFn fuel l r st
      = (greaterFn fuel l r st).map (fun p => (!p.1, p.2)) ∧
    greaterOrEqualFn fuel l r st
      = (lessFn fuel l r st).map (fun p => (!p.1, p.2)) := by
  refine ⟨?_, ?_, ?_, ?_⟩
  · unfold notEqualFn
    cases hq : equalFn fuel l r st with
    | ok p =>
      obtain ⟨b, st1⟩ := p
      simp only [hq, Except.map]
    | error e => simp only [hq, Except.map]
  · unfold greaterFn
    cases hl : lessFn fuel l r st with
    | error e => simp only [hl]
    | ok p =>
      obtain ⟨b, st1⟩ := p
      simp only [hl]
      cases b
      · cases hq : equalFn fuel l r st1 with
        | error e => simp only [hq, Except.map, Bool.false_eq_true, if_false]
        | ok q =>
          obtain ⟨b2, st2⟩ := q
          simp only [hq, Except.map, Bool.false_eq_true, if_false]
      · simp
  · unfold lessOrEqualFn
    cases hg : greaterFn fuel l r st with
    | ok p =>
      obtain ⟨b, st1⟩ := p
      simp only [hg, Except.map]
    | error e => simp only [hg, Except.map]
  · unfold greaterOrEqualFn
    cases hl : lessFn fuel l r st with
    | ok p =>
      obtain ⟨b, st1⟩ := p
      simp only [hl, Except.map]
    | error e => simp only [hl, Except.map]

/-- C1 (amended): `MethodBody::Execute` catches every runtime error its
body raises.  A `ReturnSignal` (runtime error with message exactly
`"return"`) yields the holder stashed under the reserved key in the
frame closure at the moment of the throw; a body that finishes yields
empty; and any other runtime error — contrary to the spec — is also
caught, yielding empty instead of propagating to the caller.  (Only
non-exception failures pass through.) -/
theorem methodBody_catches_every_error (fuel : Nat) (body : Stmt) (c : Closure) (st : RState) :
    (∀ msg c1 st1, msg ≠ "return" →
        exec fuel body c st = .error (.rte msg, c1, st1) →
        exec (fuel+1) (.methodBody body) c st = .ok (none, c1, st1)) ∧
    (∀ c1 st1 h, exec fuel body c st = .error (.rte "return", c1, st1) →
        closureFind c1 "return" = some h →
        exec (fuel+1) (.methodBody body) c st = .ok (h, c1, st1)) ∧
    (∀ h c1 st1, exec fuel body c st = .ok (h, c1, st1) →
        exec (fuel+1) (.methodBody body) c st = .ok (none, c1, st1)) := by
  refine ⟨?_, ?_, ?_⟩
  · intro msg c1 st1 hne hb
    simp only [exec]
    rw [hb]
    simp [hne]
  · intro c1 st1 h hb hfind
    simp only [exec]
    rw [hb]
    simp [hfind]
  · intro h c1 st1 hb
    simp only [exec]
    rw [hb]

/-- Witness for `methodBody_catches_every_error`: a body raising the
ArithmeticError of `Div(Number(7), Number(0))` is caught and the method
body yields the empty holder. -/
theorem methodBody_catches_every_error_witness :
    exec 3 (.methodBody (.div (.variableValue "x" []) (.variableValue "y" [])))
        [("x", some 0), ("y", some 1)] ⟨[.num 7, .num 0], ""⟩
      = .ok (none, [("x", some 0), ("y", some 1)], ⟨[.num 7, .num 0], ""⟩) :=
  (methodBody_catches_every_error 2 (.div (.variableValue "x" []) (.variableValue "y" []))
      [("x", some 0), ("y", some 1)] ⟨[.num 7, .num 0], ""⟩).1
    "Div(Number, 0): divide by zero" _ _ (by decide) rfl

/-- C1 (counterexample to the claim as stated): the wrapped body
`Div(x, y)` with `x = Number 7`, `y = Number 0` raises the
ArithmeticError (second conjunct), but `MethodBody::Execute` returns the
empty holder instead of letting it propagate to the caller (first
conjunct): catching is not limited to the internal ReturnSignal. -/
theorem methodBody_swallows_arith_error :
    exec 3 (.methodBody (.div (.variableValue "x" []) (.variableValue "y" [])))
        [("x", some 0), ("y", some 1)] ⟨[.num 7, .num 0], ""⟩
      = .ok (none, [("x", some 0), ("y", some 1)], ⟨[.num 7, .num 0], ""⟩) ∧
    exec 2 (.div (.variableValue "x" []) (.variableValue "y" []))
        [("x", some 0), ("y", some 1)] ⟨[.num 7, .num 0], ""⟩
      = .error (.rte "Div(Number, 0): divide by zero",
                [("x", some 0), ("y", some 1)], ⟨[.num 7, .num 0], ""⟩) :=
  ⟨rfl, rfl⟩

/-- Is the object a Class descriptor? -/
def isClassObj : Obj → Bool
  | .clsV _ => true
  | _ => false

/-- C2 (amended): executing a `ClassDefinition` binds the class's name
in the current environment to an owning holder of a freshly constructed
ClassInstance of that class — not of the Class descriptor itself.  For a
class without a zero-argument `__init__` the complete effect is: the new
instance is allocated at the end of the heap with empty fields, and the
class's name is bound to it; environment and world are otherwise
untouched (first conjunct).  For a class with a zero-argument
`__init__`, that `__init__` is invoked on the fresh instance first: when
the call finishes, the name is bound to the same fresh instance's
holder, the environment is otherwise untouched and the world is the one
the call produced (second conjunct); when the call raises, the error
propagates and nothing is bound (third conjunct). -/
theorem classDefinition_binds_fresh_instance (fuel : Nat) (cv : ClassVal)
    (c : Closure) (st : RState) :
    (hasMethod cv "__init__" 0 = false →
        exec (fuel+3) (.classDefinition cv) c st
          = .ok (some st.heap.length, closureSet c cv.name (some st.heap.length),
                 { st with heap := st.heap ++ [.inst cv []] })) ∧
    (∀ h2 st2, hasMethod cv "__init__" 0 = true →
        callMethod (fuel+1) st.heap.length "__init__" []
            { st with heap := st.heap ++ [.inst cv []] } = .ok (h2, st2) →
        exec (fuel+3) (.classDefinition cv) c st
          = .ok (some st.heap.length, closureSet c cv.name (some st.heap.length), st2)) ∧
    (∀ e st2, hasMethod cv "__init__" 0 = true →
        callMethod (fuel+1) st.heap.length "__init__" []
            { st with heap := st.heap ++ [.inst cv []] } = .error (e, st2) →
        exec (fuel+3) (.classDefinition cv) c st = .error (e, c, st2)) := by
  refine ⟨?_, ?_, ?_⟩
  · intro hinit
    simp only [exec, alloc]
    simp [hinit]
  · intro h2 st2 hinit hcall
    simp only [exec, execArgs, alloc, List.length_nil]
    simp [hinit, hcall]
  · intro e st2 hinit hcall
    simp only [exec, execArgs, alloc, List.length_nil]
    simp [hinit, hcall]

/-- Witness for `classDefinition_binds_fresh_instance`, covering both
cases: a class `C` with no `__init__`, and a class `D` whose
zero-argument `__init__` body is `self` (a call that finishes without
touching the world). -/
theorem classDefinition_binds_fresh_instance_witness :
    exec 3 (.classDefinition (.mk "C" [] none)) [] ⟨[], ""⟩
      = .ok (some 0, [("C", some 0)], ⟨[.inst (.mk "C" [] none) []], ""⟩) ∧
    exec 4 (.classDefinition
          (.mk "D" [.mk "__init__" [] (.variableValue "self" [])] none)) [] ⟨[], ""⟩
      = .ok (some 0, [("D", some 0)],
             ⟨[.inst (.mk "D" [.mk "__init__" [] (.variableValue "self" [])] none) []], ""⟩) := by
  constructor
  · have h := (classDefinition_binds_fresh_instance 0 (.mk "C" [] none) [] ⟨[], ""⟩).1
      (by decide)
    simpa [closureSet, ClassVal.name] using h
  · have h := (classDefinition_binds_fresh_instance 1
        (.mk "D" [.mk "__init__" [] (.variableValue "self" [])] none) [] ⟨[], ""⟩).2.1
      (some 0)
      ⟨[.inst (.mk "D" [.mk "__init__" [] (.variableValue "self" [])] none) []], ""⟩
      (by decide) rfl
    simpa [closureSet, ClassVal.name] using h

/-- C2 (counterexample to the claim as stated): executing the
`ClassDefinition` of a class `C` binds `C` to a holder whose target is a
ClassInstance, not the Class descriptor the claim requires. -/
theorem classDefinition_instance_not_class :
    exec 2 (.classDefinition (.mk "C" [] none)) [] ⟨[], ""⟩
      = .ok (some 0, [("C", some 0)], ⟨[.inst (.mk "C" [] none) []], ""⟩) ∧
    (heapGet ⟨[.inst (.mk "C" [] none) []], ""⟩ 0).map isClassObj = some false :=
  ⟨rfl, rfl⟩

/-- Amended dotted-name resolution, stated independently of the executor
(spec-style recursion): segments are walked left to right; each segment
is looked up in the current lookup environment, which starts at the
frame environment and moves to an instance's field environment whenever
the segment's value is a ClassInstance — and stays where it is when the
value is anything else; a missing segment resolves to nothing; the last
segment's holder is the result. -/
def dottedWalkSpec (st : RState) : Closure → List String → Option ObjHolder
  | cl, [id] => closureFind cl id
  | cl, id :: rest =>
    match closureFind cl id with
    | some h =>
      dottedWalkSpec st
        (match asInstFields st h with
         | some f => f
         | none => cl) rest
    | none => none
  | _, [] => none

/-- The executor's dotted loop agrees with the spec-style walk. -/
theorem varLookupLoop_walk (st : RState) :
    ∀ (ids : List String), ids ≠ [] → ∀ (cl : Closure) (h0 : ObjHolder),
      varLookupLoop st cl h0 ids
        = match dottedWalkSpec st cl ids with
          | some hv => .ok hv
          | none => .error "VariableValue(dotted.?)" := by
  intro ids
  induction ids with
  | nil => intro h; exact absurd rfl h
  | cons id rest ih =>
    intro _ cl h0
    cases rest with
    | nil =>
      cases hf : closureFind cl id with
      | some h => simp [varLookupLoop, dottedWalkSpec, hf]
      | none => simp [varLookupLoop, dottedWalkSpec, hf]
    | cons id2 rest2 =>
      cases hf : closureFind cl id with
      | some h =>
        unfold varLookupLoop dottedWalkSpec
        rw [hf]
        exact ih (by simp) _ h
      | none =>
        unfold varLookupLoop dottedWalkSpec
        rw [hf]

/-- C3 (amended): dotted `VariableValue` resolution follows
`dottedWalkSpec`: the lookup environment moves into an instance's
fields only when the value resolved so far is a ClassInstance, and
otherwise stays unchanged (no error for a non-instance intermediate);
evaluation fails — with the NameError of the source,
`"VariableValue(dotted.?)"` — exactly at the first missing segment. -/
theorem variableValue_dotted_walk (fuel : Nat) (c : Closure) (st : RState)
    (ids : List String) (hne : ids ≠ []) :
    exec (fuel+1) (.variableValue "" ids) c st
      = match dottedWalkSpec st c ids with
        | some hv => .ok (hv, c, st)
        | none => .error (.rte "VariableValue(dotted.?)", c, st) := by
  simp only [exec, varValue]
  rw [varLookupLoop_walk st ids hne c none]
  simp [hne]
  cases dottedWalkSpec st c ids <;> simp

/-- Witness for `variableValue_dotted_walk`. -/
theorem variableValue_dotted_walk_witness :
    exec 1 (.variableValue "" ["a"]) [("a", some 0)] ⟨[.num 1], ""⟩
      = .ok (some 0, [("a", some 0)], ⟨[.num 1], ""⟩) := by
  have h := variableValue_dotted_walk 0 [("a", some 0)] ⟨[.num 1], ""⟩ ["a"] (by decide)
  simpa [dottedWalkSpec, closureFind] using h

/-- C3 (counterexample to the claim as stated): in `a.b` with `a` bound
to `Number 1` — not a ClassInstance — and `b` bound to `Number 2` in the
same environment, the claim requires a failure at the non-instance
intermediate; instead the evaluation succeeds and yields `b`'s value
from the environment `a` was looked up in. -/
theorem dotted_lookup_no_instance_requirement :
    exec 1 (.variableValue "" ["a", "b"]) [("a", some 0), ("b", some 1)]
        ⟨[.num 1, .num 2], ""⟩
      = .ok (some 1, [("a", some 0), ("b", some 1)], ⟨[.num 1, .num 2], ""⟩) :=
  rfl

/-- C6: `And` and `Or` short-circuit.  When the left operand of `And`
evaluates to Bool False (of `Or`, to Bool True), the result is exactly
the left operand's holder with the environment and world as the left
evaluation left them — the right operand, universally quantified here,
contributes nothing, so no side effect of it can occur.  In the
non-short-circuit cases the result is the right operand's holder; and a
non-Bool value at either evaluated position raises the TypeError of the
source (`"And(?, ?)"` / `"Or(?, ?)"`), the right operand again being
left unevaluated when the left one is non-Bool. -/
theorem and_or_short_circuit (fuel : Nat) (lhs rhs : Stmt) (c : Closure) (st : RState) :
    (∀ h c1 st1, exec fuel lhs c st = .ok (h, c1, st1) → asBool st1 h = some false →
        exec (fuel+1) (.andStmt lhs rhs) c st = .ok (h, c1, st1)) ∧
    (∀ h c1 st1, exec fuel lhs c st = .ok (h, c1, st1) → asBool st1 h = some true →
        exec (fuel+1) (.orStmt lhs rhs) c st = .ok (h, c1, st1)) ∧
    (∀ h c1 st1 h2 c2 st2 b, exec fuel lhs c st = .ok (h, c1, st1) →
        asBool st1 h = some true →
        exec fuel rhs c1 st1 = .ok (h2, c2, st2) → asBool st2 h2 = some b →
        exec (fuel+1) (.andStmt lhs rhs) c st = .ok (h2, c2, st2)) ∧
    (∀ h c1 st1 h2 c2 st2 b, exec fuel lhs c st = .ok (h, c1, st1) →
        asBool st1 h = some false →
        exec fuel rhs c1 st1 = .ok (h2, c2, st2) → asBool st2 h2 = some b →
        exec (fuel+1) (.orStmt lhs rhs) c st = .ok (h2, c2, st2)) ∧
    (∀ h c1 st1, exec fuel lhs c st = .ok (h, c1, st1) → asBool st1 h = none →
        exec (fuel+1) (.andStmt lhs rhs) c st = .error (.rte "And(?, ?)", c1, st1) ∧
        exec (fuel+1) (.orStmt lhs rhs) c st = .error (.rte "Or(?, ?)", c1, st1)) ∧
    (∀ h c1 st1 h2 c2 st2, exec fuel lhs c st = .ok (h, c1, st1) →
        asBool st1 h = some true →
        exec fuel rhs c1 st1 = .ok (h2, c2, st2) → asBool st2 h2 = none →
        exec (fuel+1) (.andStmt lhs rhs) c st = .error (.rte "And(?, ?)", c2, st2)) ∧
    (∀ h c1 st1 h2 c2 st2, exec fuel lhs c st = .ok (h, c1, st1) →
        asBool st1 h = some false →
        exec fuel rhs c1 st1 = .ok (h2, c2, st2) → asBool st2 h2 = none →
        exec (fuel+1) (.orStmt lhs rhs) c st = .error (.rte "Or(?, ?)", c2, st2)) := by
  refine ⟨?_, ?_, ?_, ?_, ?_, ?_, ?_⟩
  · intro h c1 st1 hl hb
    simp only [exec]
    rw [hl]
    simp [hb]
  · intro h c1 st1 hl hb
    simp only [exec]
    rw [hl]
    simp [hb]
  · intro h c1 st1 h2 c2 st2 b hl hb hr hb2
    simp only [exec]
    rw [hl]
    simp only [hb]
    simp only [if_true]
    rw [hr]
    simp [hb2]
  · intro h c1 st1 h2 c2 st2 b hl hb hr hb2
    simp only [exec]
    rw [hl]
    simp only [hb]
    simp only [Bool.false_eq_true, if_false]
    rw [hr]
    simp [hb2]
  · intro h c1 st1 hl hb
    constructor
    all_goals simp only [exec]
    all_goals rw [hl]
    all_goals simp [hb]
  · intro h c1 st1 h2 c2 st2 hl hb hr hb2
    simp only [exec]
    rw [hl]
    simp only [hb]
    simp only [if_true]
    rw [hr]
    simp [hb2]
  · intro h c1 st1 h2 c2 st2 hl hb hr hb2
    simp only [exec]
    rw [hl]
    simp only [hb]
    simp only [Bool.false_eq_true, if_false]
    rw [hr]
    simp [hb2]

/-- Witness for `and_or_short_circuit`: `And(f, Print[f])` with
`f = Bool False` yields `f`'s holder without printing anything, and
`Or(t, Print[t])` with `t = Bool True` likewise. -/
theorem and_or_short_circuit_witness :
    exec 2 (.andStmt (.variableValue "f" []) (.print [.variableValue "f" []]))
        [("f", some 0)] ⟨[.boolV false], ""⟩
      = .ok (some 0, [("f", some 0)], ⟨[.boolV false], ""⟩) ∧
    exec 2 (.orStmt (.variableValue "t" []) (.print [.variableValue "t" []]))
        [("t", some 0)] ⟨[.boolV true], ""⟩
      = .ok (some 0, [("t", some 0)], ⟨[.boolV true], ""⟩) :=
  ⟨(and_or_short_circuit 1 (.variableValue "f" []) (.print [.variableValue "f" []])
      [("f", some 0)] ⟨[.boolV false], ""⟩).1 (some 0) _ _ rfl rfl,
   (and_or_short_circuit 1 (.variableValue "t" []) (.print [.variableValue "t" []])
      [("t", some 0)] ⟨[.boolV true], ""⟩).2.1 (some 0) _ _ rfl rfl⟩

/-- C7: `Div` semantics.  With both operands Numbers and a nonzero
divisor, the result is a freshly allocated Number holding the quotient
truncated toward zero (`Int.tdiv`, the C++ `/` on integers); a zero
divisor raises the ArithmeticError `"Div(Number, 0): divide by zero"`;
a non-Number right operand raises `"Div(Number, ?)"` and a non-Number
left operand raises `"Div(?, ?)"`, in each case with the world exactly
as operand evaluation left it — no user-method overload is consulted,
even when an operand is a ClassInstance. -/
theorem div_semantics (fuel : Nat) (lhs rhs : Stmt) (c : Closure) (st : RState)
    (h1 : ObjHolder) (c1 : Closure) (st1 : RState)
    (h2 : ObjHolder) (c2 : Closure) (st2 : RState)
    (hl : exec fuel lhs c st = .ok (h1, c1, st1))
    (hr : exec fuel rhs c1 st1 = .ok (h2, c2, st2)) :
    (∀ n1 n2, asNumber st2 h1 = some n1 → asNumber st2 h2 = some n2 → n2 ≠ 0 →
        exec (fuel+1) (.div lhs rhs) c st
          = .ok (some st2.heap.length, c2,
                 { st2 with heap := st2.heap ++ [.num (Int.tdiv n1 n2)] })) ∧
    (∀ n1, asNumber st2 h1 = some n1 → asNumber st2 h2 = some 0 →
        exec (fuel+1) (.div lhs rhs) c st
          = .error (.rte "Div(Number, 0): divide by zero", c2, st2)) ∧
    (∀ n1, asNumber st2 h1 = some n1 → asNumber st2 h2 = none →
        exec (fuel+1) (.div lhs rhs) c st = .error (.rte "Div(Number, ?)", c2, st2)) ∧
    (asNumber st2 h1 = none →
        exec (fuel+1) (.div lhs rhs) c st = .error (.rte "Div(?, ?)", c2, st2)) := by
  refine ⟨?_, ?_, ?_, ?_⟩
  · intro n1 n2 ha hb hz
    simp only [exec]
    rw [hl]
    simp only
    rw [hr]
    simp [ha, hb, hz, alloc]
  · intro n1 ha hb
    simp only [exec]
    rw [hl]
    simp only
    rw [hr]
    simp [ha, hb]
  · intro n1 ha hb
    simp only [exec]
    rw [hl]
    simp only
    rw [hr]
    simp [ha, hb]
  · intro ha
    simp only [exec]
    rw [hl]
    simp only
    rw [hr]
    simp [ha]

/-- Witness for `div_semantics`: `7 / 2` yields a fresh `Number 3`,
and `7 / 0` raises the ArithmeticError. -/
theorem div_semantics_witness :
    exec 2 (.div (.variableValue "a" []) (.variableValue "b" []))
        [("a", some 0), ("b", some 1)] ⟨[.num 7, .num 2], ""⟩
      = .ok (some 2, [("a", some 0), ("b", some 1)], ⟨[.num 7, .num 2, .num 3], ""⟩) ∧
    exec 2 (.div (.variableValue "a" []) (.variableValue "z" []))
        [("a", some 0), ("z", some 1)] ⟨[.num 7, .num 0], ""⟩
      = .error (.rte "Div(Number, 0): divide by zero",
                [("a", some 0), ("z", some 1)], ⟨[.num 7, .num 0], ""⟩) := by
  constructor
  · have h := (div_semantics 1 (.variableValue "a" []) (.variableValue "b" [])
        [("a", some 0), ("b", some 1)] ⟨[.num 7, .num 2], ""⟩
        (some 0) _ _ (some 1) _ _ rfl rfl).1 7 2 rfl rfl (by decide)
    simpa using h
  · exact (div_semantics 1 (.variableValue "a" []) (.variableValue "z" [])
        [("a", some 0), ("z", some 1)] ⟨[.num 7, .num 0], ""⟩
        (some 0) _ _ (some 1) _ _ rfl rfl).2.1 7 rfl rfl

/-- C10: `Assignment::Execute` and `FieldAssignment::Execute` evaluate
their right-hand side exactly once — the final world is the world of the
single right-hand-side evaluation, plus only the binding itself — and
return the very holder that was bound: the holder stored under the
target name (looked up via `closureFind` in the conclusion) is the same
holder the execution returns, so the returned result shares its target
object with the new binding. -/
theorem assignment_returns_bound_holder (fuel : Nat) (rhs : Stmt) (c : Closure) (st : RState) :
    (∀ (name : String) h c1 st1, exec fuel rhs c st = .ok (h, c1, st1) →
        exec (fuel+1) (.assignment name rhs) c st = .ok (h, closureSet c1 name h, st1) ∧
        closureFind (closureSet c1 name h) name = some h) ∧
    (∀ (ovn : String) (oids : List String) (fname : String) hobj a cv h c1 st1 cv2 flds2,
        varValue st c ovn oids = .ok hobj →
        asInst st hobj = some (a, cv) →
        exec fuel rhs c st = .ok (h, c1, st1) →
        heapGet st1 a = some (.inst cv2 flds2) →
        exec (fuel+1) (.fieldAssignment ovn oids fname rhs) c st
          = .ok (h, c1, heapSet st1 a (.inst cv2 (closureSet flds2 fname h))) ∧
        closureFind (closureSet flds2 fname h) fname = some h) := by
  constructor
  · intro name h c1 st1 hrhs
    refine ⟨?_, closureFind_closureSet c1 name h⟩
    simp only [exec]
    rw [hrhs]
  · intro ovn oids fname hobj a cv h c1 st1 cv2 flds2 hvv hinst hrhs hheap
    refine ⟨?_, closureFind_closureSet flds2 fname h⟩
    simp only [exec]
    rw [hvv]
    simp only [hinst]
    rw [hrhs]
    simp [hheap]

/-- Witness for `assignment_returns_bound_holder`: assigning `y` to `x`
returns `y`'s holder and binds it; assigning `o.f` likewise through the
instance's field environment. -/
theorem assignment_returns_bound_holder_witness :
    exec 2 (.assignment "x" (.variableValue "y" [])) [("y", some 0)] ⟨[.num 5], ""⟩
      = .ok (some 0, [("y", some 0), ("x", some 0)], ⟨[.num 5], ""⟩) ∧
    exec 2 (.fieldAssignment "o" [] "f" (.variableValue "y" []))
        [("o", some 1), ("y", some 0)] ⟨[.num 5, .inst (.mk "C" [] none) []], ""⟩
      = .ok (some 0, [("o", some 1), ("y", some 0)],
             ⟨[.num 5, .inst (.mk "C" [] none) [("f", some 0)]], ""⟩) := by
  constructor
  · have h := ((assignment_returns_bound_holder 1 (.variableValue "y" [])
        [("y", some 0)] ⟨[.num 5], ""⟩).1 "x" (some 0) [("y", some 0)] ⟨[.num 5], ""⟩ rfl).1
    simpa [closureSet] using h
  · have h := ((assignment_returns_bound_holder 1 (.variableValue "y" [])
        [("o", some 1), ("y", some 0)] ⟨[.num 5, .inst (.mk "C" [] none) []], ""⟩).2
        "o" [] "f" (some 1) 1 (.mk "C" [] none) (some 0)
        [("o", some 1), ("y", some 0)] ⟨[.num 5, .inst (.mk "C" [] none) []], ""⟩
        (.mk "C" [] none) []
        rfl rfl rfl rfl).1
    simpa [closureSet, heapSet] using h

end Mython
